import Mathlib

/-!
# dnstt-helper client wrapper: a verification development

Shallow embedding of `clients/cli/main.go`.

* Go strings are Lean `String`s, Go `int` is `Int` (wrapped to 64 bits where the
  code increments it), `time.Duration` is `Int` (nanoseconds), slices are `List`s.
* An `error` result is `Option String`: `none` is the `nil` error, `some msg` the
  error whose text is `msg`.
* What the program reads from its environment (the outcome of each start of the
  external client, the outcome of each dial, the order in which the probe
  goroutines finish, what the JSON and YAML decoders make of a file) is an explicit
  argument of the function that reads it.
* An `exec.Cmd` runs one process: `Run` on a command that has started a process
  before returns `exec: already started` and starts nothing. The loop model keeps
  track of whether the current command has run.
-/

namespace DnsttHelper

/-! ## Data model (`main.go` lines 25-51) -/

/-- Go struct `Resolver`: a DNS resolver configuration. -/
structure Resolver where
  /-- Go field `Type` (a Lean keyword, hence `Kind`): udp, doh, dot. -/
  Kind : String
  Addr : String
  URL : String
  Priority : Int
  deriving DecidableEq, Repr

/-- Go struct `Config`: the client configuration. -/
structure Config where
  Domain : String
  LocalAddr : String
  PubKey : String
  PubKeyFile : String
  Resolvers : List Resolver
  MTU : String
  Failover : Bool
  RetryCount : Int
  Timeout : Int
  deriving DecidableEq, Repr

/-- Go struct `ResolverResult`: one latency test result. -/
structure ResolverResult where
  Resolver : Resolver
  Latency : Int
  Success : Bool
  deriving DecidableEq, Repr

/-! ## `validateConfig` (lines 201-215) -/

/-- Go `validateConfig`: the four checks in source order, first failure wins. -/
def validateConfig (config : Config) : Option String :=
  if config.Domain = "" then
    some "domain is required"
  else if config.LocalAddr = "" then
    some "local address is required"
  else if config.PubKey = "" ∧ config.PubKeyFile = "" then
    some "public key is required (--pubkey or --pubkey-file)"
  else if config.Resolvers.length = 0 then
    some "at least one resolver is required"
  else
    none

/-! ## `buildClientArgs` (lines 399-431) -/

/-- The resolver part of `buildClientArgs` (lines 402-413): the `switch` on the
head resolver's type; no `default` case, so any other type appends nothing. -/
def resolverArgs (resolvers : List Resolver) : List String :=
  match resolvers with
  | [] => []
  | r :: _ =>
    if r.Kind = "udp" then ["-udp", r.Addr]
    else if r.Kind = "doh" then ["-doh", r.URL]
    else if r.Kind = "dot" then ["-dot", r.Addr]
    else []

/-- The key part of `buildClientArgs` (lines 415-420). -/
def keyArgs (config : Config) : List String :=
  if config.PubKey ≠ "" then ["-pubkey", config.PubKey]
  else if config.PubKeyFile ≠ "" then ["-pubkey-file", config.PubKeyFile]
  else []

/-- The MTU part of `buildClientArgs` (lines 422-425). -/
def mtuArgs (config : Config) : List String :=
  if config.MTU ≠ "" ∧ config.MTU ≠ "auto" then ["-mtu", config.MTU] else []

/-- Go `buildClientArgs`: the four appends in source order. -/
def buildClientArgs (config : Config) : List String :=
  resolverArgs config.Resolvers ++ keyArgs config ++ mtuArgs config
    ++ [config.Domain, config.LocalAddr]

/-! ## MTU selection (lines 308-338) -/

/-- Go `testMTU`: the heuristic keyed on the resolver type. -/
def testMTU (resolver : Resolver) (mtu : Int) : Bool :=
  if resolver.Kind = "udp" then decide (mtu ≤ 1232)
  else if resolver.Kind = "doh" ∨ resolver.Kind = "dot" then decide (mtu ≤ 1400)
  else decide (mtu ≤ 1232)

/-- The candidate list of `detectOptimalMTU`, highest first. -/
def mtuValues : List Int := [1400, 1232, 1200, 1000, 512]

/-- The `for` loop of `detectOptimalMTU` over the remaining candidates: the first
candidate that passes `testMTU` is printed with `%d`; `"512"` when none passes. -/
def detectFrom (resolver : Resolver) : List Int → String
  | [] => "512"
  | mtu :: rest => if testMTU resolver mtu then toString mtu else detectFrom resolver rest

/-- Go `detectOptimalMTU`. -/
def detectOptimalMTU (resolver : Resolver) : String :=
  detectFrom resolver mtuValues

/-- The MTU step of `main` (lines 112-116). `config.Resolvers[0]` on an empty
slice is a run-time panic: `none`. -/
def resolveMTU (config : Config) : Option Config :=
  if config.MTU = "auto" then
    match config.Resolvers with
    | [] => none
    | r :: _ => some { config with MTU := detectOptimalMTU r }
  else
    some config

/-! ## Resolver probing and ranking (lines 217-293) -/

/-- What one call of `testResolverLatency` reads from its environment: the time
elapsed since `start` and whether `net.DialTimeout` returned no error. -/
structure ProbeEnv where
  elapsed : Int
  dialOk : Bool
  deriving DecidableEq, Repr

/-- Go `testResolverLatency`: udp and dot succeed when the dial does, doh always,
any other type never (`success` keeps its zero value). -/
def testResolverLatency (env : ProbeEnv) (resolver : Resolver) : Int × Bool :=
  let success :=
    if resolver.Kind = "udp" then env.dialOk
    else if resolver.Kind = "doh" then true
    else if resolver.Kind = "dot" then env.dialOk
    else false
  (env.elapsed, success)

/-- The `less` closure handed to `sort.Slice` (lines 240-245). -/
def resultLess (a b : ResolverResult) : Bool :=
  if a.Success ≠ b.Success then a.Success else decide (a.Latency < b.Latency)

/-- Inner loop of Go's `insertionSort_func`
(`for j := i; j > a && less(j, j-1); j-- { swap(j, j-1) }`): the element `x` at
index `i` moves left past every neighbour it is less than. The argument list is
the sorted prefix `data[a:i]` read from its right end, and so is the result. -/
def insertLeft {α : Type} (less : α → α → Bool) (x : α) : List α → List α
  | [] => [x]
  | y :: ys => if less x y then y :: insertLeft less x ys else x :: y :: ys

/-- Go's `insertionSort_func` of package `sort`
(`for i := a + 1; i < b; i++ { inner loop }`): the elements enter the sorted
prefix from left to right. -/
def insertionSort_func {α : Type} (less : α → α → Bool) (data : List α) : List α :=
  (data.foldl (fun sortedPrefix x => insertLeft less x sortedPrefix) []).reverse

/-- Constant `maxInsertion` of Go's `pdqsort_func`. -/
def maxInsertion : Nat := 12

/-- Go's `sort.Slice` (Go 1.19 and later): `pdqsort_func` sorts a slice of at most
`maxInsertion` elements with `insertionSort_func` and returns. The pattern-defeating
quicksort that handles longer slices is the argument `pdqsort`. -/
def sortSlice {α : Type} (pdqsort : (α → α → Bool) → List α → List α)
    (less : α → α → Bool) (data : List α) : List α :=
  if data.length ≤ maxInsertion then insertionSort_func less data else pdqsort less data

/-- The ranking step of `selectFastestResolver` (lines 239-245): the `sort.Slice`
call on the collected results. -/
def rankResults (pdqsort : (ResolverResult → ResolverResult → Bool) →
    List ResolverResult → List ResolverResult) (results : List ResolverResult) :
    List ResolverResult :=
  sortSlice pdqsort resultLess results

/-- The projection loop of `selectFastestResolver` (lines 256-260). -/
def sortedResolvers (results : List ResolverResult) : List Resolver :=
  results.map (fun r => r.Resolver)

/-- The result each probe goroutine builds (lines 226-232), listed in the order of
the input slice; `env i` is what the probe of the resolver at index `i` observes. -/
def probeAll (env : Nat → ProbeEnv) (resolvers : List Resolver) : List ResolverResult :=
  resolvers.enum.map (fun ir =>
    { Resolver := ir.2,
      Latency := (testResolverLatency (env ir.1) ir.2).1,
      Success := (testResolverLatency (env ir.1) ir.2).2 })

/-- The slice `results` after `wg.Wait()`: every goroutine appends its result
under the mutex, so the slice lists the results in the order `completion` in
which the goroutines took the lock (a permutation of the input indices). -/
def collectResults (completion : List Nat) (probed : List ResolverResult) :
    List ResolverResult :=
  completion.filterMap (fun i => probed.get? i)

/-- Go `selectFastestResolver`: probe, collect in completion order, sort, project. -/
def selectFastestResolver (pdqsort : (ResolverResult → ResolverResult → Bool) →
    List ResolverResult → List ResolverResult) (env : Nat → ProbeEnv)
    (completion : List Nat) (resolvers : List Resolver) : List Resolver :=
  sortedResolvers (rankResults pdqsort (collectResults completion (probeAll env resolvers)))

/-! ## The supervision loop of `runClient` (lines 340-397) -/

/-- How `runClient` ends. -/
inductive Exit where
  | succeeded
  | exhausted
  | binaryNotFound
  deriving DecidableEq, Repr

/-- What a call of `cmd.Run()` ends in when it reaches the operating system: the
client ran and exited with status 0 (`Run` returns nil), the client ran and ended
otherwise, or the client could not be started. -/
inductive ProcessOutcome where
  | exitZero
  | exitNonZero
  | startFailed
  deriving DecidableEq, Repr

/-- One call of `cmd.Run()` (line 387): the resolver order of `config` at that
moment, the argument list of the command that is run, and the result of the call.
The result is `none` when `Run` refuses with `exec: already started` because the
same `exec.Cmd` has started a process before; the client is not run then. -/
structure Attempt where
  resolvers : List Resolver
  args : List String
  result : Option ProcessOutcome
  deriving DecidableEq, Repr

/-- Go `int` arithmetic on a 64-bit platform: the result of `retry++` wraps. -/
def wrapInt (x : Int) : Int := (x + 2 ^ 63) % 2 ^ 64 - 2 ^ 63

/-- The expression `append(config.Resolvers[1:], config.Resolvers[0])` (line 378). -/
def rotateResolvers : List Resolver → List Resolver
  | [] => []
  | r :: rest => rest ++ [r]

/-- The condition under which an iteration switches resolver (lines 372 and 377):
`retry > 0`, failover enabled and more than one resolver. -/
def switchResolver (retry : Int) (config : Config) : Bool :=
  decide (retry > 0) && (config.Failover && decide (config.Resolvers.length > 1))

/-- The configuration an iteration runs with: rotated (line 378) on a switch. -/
def retryConfig (retry : Int) (config : Config) : Config :=
  if switchResolver retry config then
    { config with Resolvers := rotateResolvers config.Resolvers }
  else config

/-- The argument list an iteration runs with: rebuilt (line 379) on a switch,
otherwise the list of the command built before. -/
def retryArgs (retry : Int) (config : Config) (args : List String) : List String :=
  if switchResolver retry config then buildClientArgs (retryConfig retry config) else args

/-- Whether the `exec.Cmd` an iteration runs has started a process before
(`cmd.Process != nil`). `started` tells it of the command of the previous
iteration; `exec.Command` builds a new one only before the loop (line 355) and on
a switch (line 380), every other iteration runs the old one again. -/
def cmdStarted (retry : Int) (config : Config) (started : Bool) : Bool :=
  started && !switchResolver retry config

/-- The result of `cmd.Run()` (line 387): `exec: already started` and no process
for a command that has started one before, otherwise what the environment makes
of the next start of the client; `launches` counts the earlier starts. -/
def runResult (run : Nat → ProcessOutcome) (launches : Nat) (started : Bool) :
    Option ProcessOutcome :=
  if started then none else some (run launches)

/-- Whether the command has started a process once the call of `Run` is over. -/
def startedAfter : Option ProcessOutcome → Bool
  | none => true
  | some ProcessOutcome.startFailed => false
  | some _ => true

/-- The number of starts of the client asked of the environment so far. -/
def launchesAfter (launches : Nat) (started : Bool) : Nat :=
  if started then launches else launches + 1

/-- The record of the call of `cmd.Run()` an iteration makes. -/
def attemptOf (run : Nat → ProcessOutcome) (retry : Int) (config : Config)
    (args : List String) (started : Bool) (launches : Nat) : Attempt :=
  { resolvers := (retryConfig retry config).Resolvers,
    args := retryArgs retry config args,
    result := runResult run launches (cmdStarted retry config started) }

/-- The `for retry := 0; retry <= config.RetryCount; retry++` loop (lines 371-393).
`run k` is what the environment makes of the start of the client that follows `k`
earlier starts. The state is the counter, the configuration, the argument list of
the current command, whether that command has started a process, and the number of
starts so far. `fuel` bounds the number of iterations; the first component of the
result is `none` when the loop is still running after `fuel` iterations. The second
component lists the calls of `cmd.Run()` made, oldest first. -/
def superviseLoop (run : Nat → ProcessOutcome) :
    Nat → Int → Config → List String → Bool → Nat → List Attempt →
      Option Exit × List Attempt
  | 0, _, _, _, _, _, trace => (none, trace)
  | fuel + 1, retry, config, args, started, launches, trace =>
    if retry ≤ config.RetryCount then
      if runResult run launches (cmdStarted retry config started) =
          some ProcessOutcome.exitZero then
        (some Exit.succeeded, trace ++ [attemptOf run retry config args started launches])
      else
        superviseLoop run fuel (wrapInt (retry + 1)) (retryConfig retry config)
          (retryArgs retry config args)
          (startedAfter (runResult run launches (cmdStarted retry config started)))
          (launchesAfter launches (cmdStarted retry config started))
          (trace ++ [attemptOf run retry config args started launches])
    else (some Exit.exhausted, trace)

/-- Go `runClient`; `clientPath` is the result of `findClientBinary`. The command
built before the loop (line 355) has started no process. -/
def runClient (clientPath : String) (run : Nat → ProcessOutcome) (fuel : Nat)
    (config : Config) : Option Exit × List Attempt :=
  if clientPath = "" then (some Exit.binaryNotFound, [])
  else superviseLoop run fuel 0 config (buildClientArgs config) false 0 []

/-! ## `loadConfig` (lines 122-150) -/

/-- The keys of a configuration file: `none` for a key the file does not have. -/
structure FileFields where
  domain : Option String
  local_addr : Option String
  pubkey : Option String
  pubkey_file : Option String
  resolvers : Option (List Resolver)
  mtu : Option String
  failover : Option Bool
  retry_count : Option Int
  timeout : Option Int
  deriving DecidableEq, Repr

/-- The value of `var config Config`: every field zero. -/
def zeroConfig : Config :=
  { Domain := "", LocalAddr := "", PubKey := "", PubKeyFile := "", Resolvers := [],
    MTU := "", Failover := false, RetryCount := 0, Timeout := 0 }

/-- Decoding a well-formed file into `config` (`json.Unmarshal`, `yaml.Unmarshal`):
a key of the file overwrites its field, a field without a key keeps its value. -/
def unmarshalFields (file : FileFields) (config : Config) : Config :=
  { Domain := file.domain.getD config.Domain,
    LocalAddr := file.local_addr.getD config.LocalAddr,
    PubKey := file.pubkey.getD config.PubKey,
    PubKeyFile := file.pubkey_file.getD config.PubKeyFile,
    Resolvers := file.resolvers.getD config.Resolvers,
    MTU := file.mtu.getD config.MTU,
    Failover := file.failover.getD config.Failover,
    RetryCount := file.retry_count.getD config.RetryCount,
    Timeout := file.timeout.getD config.Timeout }

/-- The default step of `loadConfig` (lines 138-147). -/
def applyDefaults (config : Config) : Config :=
  let config := if config.RetryCount = 0 then { config with RetryCount := 3 } else config
  let config := if config.Timeout = 0 then { config with Timeout := 10 } else config
  if config.MTU = "" then { config with MTU := "1232" } else config

/-- Go `loadConfig`. `data` is the result of `os.ReadFile` (the text of the file,
or the text of the error); `jsonUnmarshal` and `yamlUnmarshal` return the
configuration as the call leaves it and the text of the error the call returns
(`none` for nil). The YAML decoder works on the struct as the JSON decoder left it
(lines 131-133). -/
def loadConfig (data : Except String String)
    (jsonUnmarshal yamlUnmarshal : String → Config → Config × Option String) :
    Except String Config :=
  match data with
  | Except.error e => Except.error ("failed to read config file: " ++ e)
  | Except.ok d =>
    match jsonUnmarshal d zeroConfig with
    | (c, none) => Except.ok (applyDefaults c)
    | (c, some _) =>
      match yamlUnmarshal d c with
      | (c2, none) => Except.ok (applyDefaults c2)
      | (_, some e) =>
        Except.error ("failed to parse config (tried JSON and YAML): " ++ e)

/-! ## A sample configuration -/

/-- The configuration the three resolver flags of the command line build
(`buildConfigFromFlags`), with a key file and a literal MTU. -/
def sampleConfig : Config :=
  { Domain := "t.example.com", LocalAddr := "127.0.0.1:7000", PubKey := "",
    PubKeyFile := "server.pub",
    Resolvers :=
      [{ Kind := "udp", Addr := "8.8.8.8:53", URL := "", Priority := 1 },
       { Kind := "doh", Addr := "", URL := "https://dns.example/dns-query", Priority := 2 },
       { Kind := "dot", Addr := "1.1.1.1:853", URL := "", Priority := 3 }],
    MTU := "1232", Failover := true, RetryCount := 3, Timeout := 10 }

/-! ## Contracts of the library code that is an argument of the model -/

/-- The requirement `sort.Slice` puts on `less`: a strict weak ordering (`less` is
asymmetric and "not less" is transitive). -/
def StrictWeak {α : Type} (less : α → α → Bool) : Prop :=
  (∀ a b, less a b = true → less b a = false) ∧
  (∀ a b c, less a b = false → less b c = false → less a c = false)

/-- What a sorting routine of package `sort` promises for a strict weak ordering:
the result is a permutation of the input and no element is less than one before it. -/
def SortsSlice {α : Type} (sort : (α → α → Bool) → List α → List α) : Prop :=
  ∀ less, StrictWeak less → ∀ data,
    (sort less data).Perm data ∧ (sort less data).Pairwise (fun a b => less b a = false)

/-- Two probe results tie under `resultLess`: same success flag, same latency. -/
def tied (a b : ResolverResult) : Bool :=
  decide (a.Success = b.Success) && decide (a.Latency = b.Latency)

/-! ## Validation -/

/-- An accepted configuration has a domain, a local address, a key and a resolver. -/
theorem validateConfig_accepts (config : Config) (hv : validateConfig config = none) :
    config.Domain ≠ "" ∧ config.LocalAddr ≠ "" ∧
      ¬ (config.PubKey = "" ∧ config.PubKeyFile = "") ∧ config.Resolvers ≠ [] := by
  unfold validateConfig at hv
  by_cases h1 : config.Domain = ""
  · simp [h1] at hv
  · by_cases h2 : config.LocalAddr = ""
    · simp [h1, h2] at hv
    · by_cases h3 : config.PubKey = "" ∧ config.PubKeyFile = ""
      · simp [h1, h2, h3] at hv
      · by_cases h4 : config.Resolvers = []
        · simp [h1, h2, h3, h4] at hv
        · exact ⟨h1, h2, h3, h4⟩

/-- C1: `validateConfig` returns an error exactly when the domain is empty, the
local address is empty, both key forms are empty, or there is no resolver; each
condition has its own message, the four messages are pairwise distinct, and a
configuration with all four present is accepted. -/
theorem validateConfig_error_iff (config : Config) :
    (validateConfig config ≠ none ↔
      (config.Domain = "" ∨ config.LocalAddr = "" ∨
        (config.PubKey = "" ∧ config.PubKeyFile = "") ∨ config.Resolvers = [])) ∧
    (config.Domain = "" → validateConfig config = some "domain is required") ∧
    (config.Domain ≠ "" → config.LocalAddr = "" →
      validateConfig config = some "local address is required") ∧
    (config.Domain ≠ "" → config.LocalAddr ≠ "" →
      config.PubKey = "" ∧ config.PubKeyFile = "" →
      validateConfig config = some "public key is required (--pubkey or --pubkey-file)") ∧
    (config.Domain ≠ "" → config.LocalAddr ≠ "" →
      ¬ (config.PubKey = "" ∧ config.PubKeyFile = "") → config.Resolvers = [] →
      validateConfig config = some "at least one resolver is required") ∧
    List.Pairwise (fun a b : String => a ≠ b)
      ["domain is required", "local address is required",
       "public key is required (--pubkey or --pubkey-file)",
       "at least one resolver is required"] ∧
    (config.Domain ≠ "" → config.LocalAddr ≠ "" →
      ¬ (config.PubKey = "" ∧ config.PubKeyFile = "") → config.Resolvers ≠ [] →
      validateConfig config = none) := by
  refine ⟨?_, ?_, ?_, ?_, ?_, by decide, ?_⟩
  · unfold validateConfig
    by_cases h1 : config.Domain = ""
    · simp [h1]
    · by_cases h2 : config.LocalAddr = ""
      · simp [h1, h2]
      · by_cases h3 : config.PubKey = "" ∧ config.PubKeyFile = ""
        · simp [h1, h2, h3]
        · by_cases h4 : config.Resolvers = []
          · simp [h1, h2, h3, h4]
          · simp [h1, h2, h3, h4, List.length_eq_zero]
  · intro h1
    simp [validateConfig, h1]
  · intro h1 h2
    simp [validateConfig, h1, h2]
  · intro h1 h2 h3
    simp [validateConfig, h1, h2, h3]
  · intro h1 h2 h3 h4
    simp [validateConfig, h1, h2, h3, h4]
  · intro h1 h2 h3 h4
    simp [validateConfig, h1, h2, h3, h4, List.length_eq_zero]

/-! ## Argument list -/

/-- C2: for an accepted configuration whose head resolver is udp, doh or dot,
`buildClientArgs` is the resolver pair, one key pair (`-pubkey` when `PubKey` is
non-empty, otherwise `-pubkey-file`), the `-mtu` pair, the domain and the local
address, eight elements in this order, when the MTU is a literal; for the MTU
`auto` or empty only the `-mtu` pair is missing. -/
theorem buildClientArgs_order (config : Config) (r : Resolver) (rest : List Resolver)
    (hv : validateConfig config = none) (hr : config.Resolvers = r :: rest)
    (hk : r.Kind = "udp" ∨ r.Kind = "doh" ∨ r.Kind = "dot") :
    ∃ rflag rval kflag kval : String,
      ((r.Kind = "udp" ∧ rflag = "-udp" ∧ rval = r.Addr) ∨
        (r.Kind = "doh" ∧ rflag = "-doh" ∧ rval = r.URL) ∨
        (r.Kind = "dot" ∧ rflag = "-dot" ∧ rval = r.Addr)) ∧
      ((config.PubKey ≠ "" ∧ kflag = "-pubkey" ∧ kval = config.PubKey) ∨
        (config.PubKey = "" ∧ config.PubKeyFile ≠ "" ∧
          kflag = "-pubkey-file" ∧ kval = config.PubKeyFile)) ∧
      (config.MTU ≠ "" → config.MTU ≠ "auto" →
        buildClientArgs config =
          [rflag, rval, kflag, kval, "-mtu", config.MTU, config.Domain, config.LocalAddr]) ∧
      (config.MTU = "" ∨ config.MTU = "auto" →
        buildClientArgs config = [rflag, rval, kflag, kval, config.Domain, config.LocalAddr]) := by
  obtain ⟨-, -, hkey, -⟩ := validateConfig_accepts config hv
  have hres : ∃ rflag rval : String,
      ((r.Kind = "udp" ∧ rflag = "-udp" ∧ rval = r.Addr) ∨
        (r.Kind = "doh" ∧ rflag = "-doh" ∧ rval = r.URL) ∨
        (r.Kind = "dot" ∧ rflag = "-dot" ∧ rval = r.Addr)) ∧
      resolverArgs config.Resolvers = [rflag, rval] := by
    rw [hr]
    rcases hk with h | h | h
    · exact ⟨"-udp", r.Addr, Or.inl ⟨h, rfl, rfl⟩, by simp [resolverArgs, h]⟩
    · exact ⟨"-doh", r.URL, Or.inr (Or.inl ⟨h, rfl, rfl⟩), by simp [resolverArgs, h]⟩
    · exact ⟨"-dot", r.Addr, Or.inr (Or.inr ⟨h, rfl, rfl⟩), by simp [resolverArgs, h]⟩
  have hkeys : ∃ kflag kval : String,
      ((config.PubKey ≠ "" ∧ kflag = "-pubkey" ∧ kval = config.PubKey) ∨
        (config.PubKey = "" ∧ config.PubKeyFile ≠ "" ∧
          kflag = "-pubkey-file" ∧ kval = config.PubKeyFile)) ∧
      keyArgs config = [kflag, kval] := by
    by_cases h1 : config.PubKey = ""
    · have h2 : config.PubKeyFile ≠ "" := fun h2 => hkey ⟨h1, h2⟩
      exact ⟨"-pubkey-file", config.PubKeyFile, Or.inr ⟨h1, h2, rfl, rfl⟩,
        by simp [keyArgs, h1, h2]⟩
    · exact ⟨"-pubkey", config.PubKey, Or.inl ⟨h1, rfl, rfl⟩, by simp [keyArgs, h1]⟩
  obtain ⟨rflag, rval, hcase, hargs⟩ := hres
  obtain ⟨kflag, kval, kcase, kargs⟩ := hkeys
  refine ⟨rflag, rval, kflag, kval, hcase, kcase, ?_, ?_⟩
  · intro m1 m2
    simp [buildClientArgs, hargs, kargs, mtuArgs, m1, m2]
  · intro m
    have hm : mtuArgs config = [] := by
      rcases m with m | m <;> simp [mtuArgs, m]
    simp [buildClientArgs, hargs, kargs, hm]

/-- C2 at a concrete configuration: a DoH resolver, a key file and the MTU 1232. -/
theorem buildClientArgs_order_witness :
    ∃ rflag rval kflag kval : String,
      (("doh" = "udp" ∧ rflag = "-udp" ∧ rval = "") ∨
        ("doh" = "doh" ∧ rflag = "-doh" ∧ rval = "https://dns.example/dns-query") ∨
        ("doh" = "dot" ∧ rflag = "-dot" ∧ rval = "")) ∧
      ((("" : String) ≠ "" ∧ kflag = "-pubkey" ∧ kval = "") ∨
        (("" : String) = "" ∧ "server.pub" ≠ "" ∧
          kflag = "-pubkey-file" ∧ kval = "server.pub")) ∧
      ("1232" ≠ "" → "1232" ≠ "auto" →
        buildClientArgs
          { Domain := "t.example.com", LocalAddr := "127.0.0.1:7000", PubKey := "",
            PubKeyFile := "server.pub",
            Resolvers := [{ Kind := "doh", Addr := "", URL := "https://dns.example/dns-query",
                            Priority := 2 }],
            MTU := "1232", Failover := true, RetryCount := 3, Timeout := 10 } =
          [rflag, rval, kflag, kval, "-mtu", "1232", "t.example.com", "127.0.0.1:7000"]) ∧
      ("1232" = "" ∨ "1232" = "auto" →
        buildClientArgs
          { Domain := "t.example.com", LocalAddr := "127.0.0.1:7000", PubKey := "",
            PubKeyFile := "server.pub",
            Resolvers := [{ Kind := "doh", Addr := "", URL := "https://dns.example/dns-query",
                            Priority := 2 }],
            MTU := "1232", Failover := true, RetryCount := 3, Timeout := 10 } =
          [rflag, rval, kflag, kval, "t.example.com", "127.0.0.1:7000"]) :=
  buildClientArgs_order
    { Domain := "t.example.com", LocalAddr := "127.0.0.1:7000", PubKey := "",
      PubKeyFile := "server.pub",
      Resolvers := [{ Kind := "doh", Addr := "", URL := "https://dns.example/dns-query",
                      Priority := 2 }],
      MTU := "1232", Failover := true, RetryCount := 3, Timeout := 10 }
    { Kind := "doh", Addr := "", URL := "https://dns.example/dns-query", Priority := 2 } []
    (by decide) rfl (Or.inr (Or.inl rfl))

/-- C10: `validateConfig` never looks at the resolvers beyond their number, so a
configuration with domain, local address, key and at least one resolver is accepted
whatever the head resolver's type; when that type is none of udp, doh, dot,
`buildClientArgs` emits no resolver pair and the list starts with the key flag. -/
theorem unknown_kind_accepted_without_resolver_flag (config : Config) (r : Resolver)
    (rest : List Resolver) (hd : config.Domain ≠ "") (hl : config.LocalAddr ≠ "")
    (hk : ¬ (config.PubKey = "" ∧ config.PubKeyFile = ""))
    (hr : config.Resolvers = r :: rest) :
    validateConfig config = none ∧
    (∀ other : List Resolver, other ≠ [] →
      validateConfig { config with Resolvers := other } = none) ∧
    (r.Kind ≠ "udp" → r.Kind ≠ "doh" → r.Kind ≠ "dot" →
      resolverArgs config.Resolvers = [] ∧
      buildClientArgs config =
        keyArgs config ++ mtuArgs config ++ [config.Domain, config.LocalAddr] ∧
      (buildClientArgs config).head? =
        some (if config.PubKey ≠ "" then "-pubkey" else "-pubkey-file")) := by
  refine ⟨?_, ?_, ?_⟩
  · simp [validateConfig, hd, hl, hk, hr]
  · intro other ho
    simp [validateConfig, hd, hl, hk, ho, List.length_eq_zero]
  · intro k1 k2 k3
    have h0 : resolverArgs config.Resolvers = [] := by
      simp [hr, resolverArgs, k1, k2, k3]
    refine ⟨h0, by simp [buildClientArgs, h0], ?_⟩
    by_cases h1 : config.PubKey = ""
    · have h2 : config.PubKeyFile ≠ "" := fun h2 => hk ⟨h1, h2⟩
      simp [buildClientArgs, h0, keyArgs, h1, h2]
    · simp [buildClientArgs, h0, keyArgs, h1]

/-- C10 at a concrete configuration whose only resolver has the type `tcp`. -/
theorem unknown_kind_accepted_witness :
    validateConfig
      { Domain := "t.example.com", LocalAddr := "127.0.0.1:7000", PubKey := "abcd",
        PubKeyFile := "", Resolvers := [{ Kind := "tcp", Addr := "9.9.9.9:53", URL := "",
                                          Priority := 1 }],
        MTU := "1232", Failover := false, RetryCount := 3, Timeout := 10 } = none ∧
    buildClientArgs
      { Domain := "t.example.com", LocalAddr := "127.0.0.1:7000", PubKey := "abcd",
        PubKeyFile := "", Resolvers := [{ Kind := "tcp", Addr := "9.9.9.9:53", URL := "",
                                          Priority := 1 }],
        MTU := "1232", Failover := false, RetryCount := 3, Timeout := 10 } =
      ["-pubkey", "abcd", "-mtu", "1232", "t.example.com", "127.0.0.1:7000"] :=
  have h := unknown_kind_accepted_without_resolver_flag
    { Domain := "t.example.com", LocalAddr := "127.0.0.1:7000", PubKey := "abcd",
      PubKeyFile := "", Resolvers := [{ Kind := "tcp", Addr := "9.9.9.9:53", URL := "",
                                        Priority := 1 }],
      MTU := "1232", Failover := false, RetryCount := 3, Timeout := 10 }
    { Kind := "tcp", Addr := "9.9.9.9:53", URL := "", Priority := 1 } []
    (by decide) (by decide) (by decide) rfl
  ⟨h.1, (h.2.2 (by decide) (by decide) (by decide)).2.1⟩

/-! ## MTU selection -/

/-- C4: `detectOptimalMTU` always returns the decimal string of a candidate of
`mtuValues`; for a udp resolver it is `"1232"`, the largest candidate not above
1232, and for a doh or dot resolver `"1400"`, the largest candidate not above
1400, whatever the address, URL and priority. -/
theorem detectOptimalMTU_candidate (resolver : Resolver) :
    mtuValues = [1400, 1232, 1200, 1000, 512] ∧
    (∃ m ∈ mtuValues, detectOptimalMTU resolver = toString m) ∧
    (resolver.Kind = "udp" →
      detectOptimalMTU resolver = "1232" ∧
      ∃ m ∈ mtuValues, toString m = "1232" ∧ m ≤ 1232 ∧ ∀ k ∈ mtuValues, k ≤ 1232 → k ≤ m) ∧
    (resolver.Kind = "doh" ∨ resolver.Kind = "dot" →
      detectOptimalMTU resolver = "1400" ∧
      ∃ m ∈ mtuValues, toString m = "1400" ∧ m ≤ 1400 ∧ ∀ k ∈ mtuValues, k ≤ 1400 → k ≤ m) := by
  have hudp : resolver.Kind = "udp" → detectOptimalMTU resolver = "1232" := by
    intro h
    simp [detectOptimalMTU, detectFrom, mtuValues, testMTU, h]
    decide
  have hdoh : resolver.Kind = "doh" ∨ resolver.Kind = "dot" →
      detectOptimalMTU resolver = "1400" := by
    intro h
    have hn : resolver.Kind ≠ "udp" := by
      rcases h with h | h <;> rw [h] <;> decide
    simp [detectOptimalMTU, detectFrom, mtuValues, testMTU, h, hn]
    decide
  have hother : resolver.Kind ≠ "udp" → ¬ (resolver.Kind = "doh" ∨ resolver.Kind = "dot") →
      detectOptimalMTU resolver = "1232" := by
    intro h1 h2
    simp [detectOptimalMTU, detectFrom, mtuValues, testMTU, h1, h2]
    decide
  refine ⟨rfl, ?_, ?_, ?_⟩
  · by_cases h1 : resolver.Kind = "udp"
    · exact ⟨1232, by decide, by rw [hudp h1]; decide⟩
    · by_cases h2 : resolver.Kind = "doh" ∨ resolver.Kind = "dot"
      · exact ⟨1400, by decide, by rw [hdoh h2]; decide⟩
      · exact ⟨1232, by decide, by rw [hother h1 h2]; decide⟩
  · intro h
    exact ⟨hudp h, 1232, by decide, by decide, by decide, by decide⟩
  · intro h
    exact ⟨hdoh h, 1400, by decide, by decide, by decide, by decide⟩

/-- The result of `detectOptimalMTU` is never the token `auto` and never empty. -/
theorem detectOptimalMTU_literal (resolver : Resolver) :
    detectOptimalMTU resolver ≠ "auto" ∧ detectOptimalMTU resolver ≠ "" := by
  have h : detectOptimalMTU resolver = "1232" ∨ detectOptimalMTU resolver = "1400" := by
    by_cases h1 : resolver.Kind = "udp"
    · left
      simp [detectOptimalMTU, detectFrom, mtuValues, testMTU, h1]
      decide
    · by_cases h2 : resolver.Kind = "doh" ∨ resolver.Kind = "dot"
      · right
        simp [detectOptimalMTU, detectFrom, mtuValues, testMTU, h1, h2]
        decide
      · left
        simp [detectOptimalMTU, detectFrom, mtuValues, testMTU, h1, h2]
        decide
  rcases h with h | h <;> rw [h] <;> exact ⟨by decide, by decide⟩

/-- C7: for an accepted configuration the MTU step of `main` succeeds; it stores
`detectOptimalMTU` of the head resolver exactly when the token is `auto` and
otherwise returns the configuration unchanged; the result never carries `auto`,
and for a non-empty token `buildClientArgs` places after `-mtu` the configured
literal, or the selected candidate when the token was `auto`. -/
theorem resolveMTU_step (config : Config) (hv : validateConfig config = none) :
    ∃ (r : Resolver) (rest : List Resolver) (resolved : Config),
      config.Resolvers = r :: rest ∧
      resolveMTU config = some resolved ∧
      (config.MTU = "auto" → resolved = { config with MTU := detectOptimalMTU r }) ∧
      (config.MTU ≠ "auto" → resolved = config) ∧
      resolved.MTU ≠ "auto" ∧
      (config.MTU ≠ "" →
        buildClientArgs resolved =
          resolverArgs config.Resolvers ++ keyArgs config ++
            ["-mtu", if config.MTU = "auto" then detectOptimalMTU r else config.MTU,
             config.Domain, config.LocalAddr]) := by
  obtain ⟨-, -, -, hres⟩ := validateConfig_accepts config hv
  obtain ⟨r, rest, hr⟩ := List.exists_cons_of_ne_nil hres
  obtain ⟨hna, hne⟩ := detectOptimalMTU_literal r
  by_cases hm : config.MTU = "auto"
  · refine ⟨r, rest, { config with MTU := detectOptimalMTU r }, hr, ?_, fun _ => rfl,
      fun h => absurd hm h, hna, ?_⟩
    · simp [resolveMTU, hm, hr]
    · intro _
      simp [buildClientArgs, keyArgs, mtuArgs, hm, hna, hne]
  · refine ⟨r, rest, config, hr, ?_, fun h => absurd h hm, fun _ => rfl, hm, ?_⟩
    · simp [resolveMTU, hm]
    · intro h0
      simp [buildClientArgs, mtuArgs, hm, h0]

/-- C7 at a concrete configuration: a udp resolver and the token `auto`. -/
theorem resolveMTU_step_witness :
    ∃ (r : Resolver) (rest : List Resolver) (resolved : Config),
      [({ Kind := "udp", Addr := "8.8.8.8:53", URL := "", Priority := 1 } : Resolver)]
        = r :: rest ∧
      resolveMTU
        { Domain := "t.example.com", LocalAddr := "127.0.0.1:7000", PubKey := "",
          PubKeyFile := "server.pub",
          Resolvers := [{ Kind := "udp", Addr := "8.8.8.8:53", URL := "", Priority := 1 }],
          MTU := "auto", Failover := true, RetryCount := 3, Timeout := 10 } = some resolved ∧
      resolved.MTU ≠ "auto" :=
  have h := resolveMTU_step
    { Domain := "t.example.com", LocalAddr := "127.0.0.1:7000", PubKey := "",
      PubKeyFile := "server.pub",
      Resolvers := [{ Kind := "udp", Addr := "8.8.8.8:53", URL := "", Priority := 1 }],
      MTU := "auto", Failover := true, RetryCount := 3, Timeout := 10 } (by decide)
  h.elim fun r h1 => h1.elim fun rest h2 => h2.elim fun resolved h3 =>
    ⟨r, rest, resolved, h3.1, h3.2.1, h3.2.2.2.2.1⟩

/-! ## Sorting -/

/-- `insertLeft` adds `x` to the list and nothing else. -/
theorem insertLeft_perm {α : Type} (less : α → α → Bool) (x : α) (l : List α) :
    (insertLeft less x l).Perm (x :: l) := by
  induction l with
  | nil => simp [insertLeft]
  | cons y ys ih =>
    unfold insertLeft
    by_cases h : less x y = true
    · rw [if_pos h]
      exact (List.Perm.cons y ih).trans (List.Perm.swap x y ys)
    · rw [if_neg h]

/-- The outer loop of `insertionSort_func` keeps the elements. -/
theorem foldl_insertLeft_perm {α : Type} (less : α → α → Bool) (data : List α) :
    ∀ acc : List α,
      (data.foldl (fun sortedPrefix x => insertLeft less x sortedPrefix) acc).Perm
        (data ++ acc) := by
  induction data with
  | nil => intro acc; simp
  | cons x xs ih =>
    intro acc
    rw [List.foldl_cons]
    refine (ih (insertLeft less x acc)).trans ?_
    refine (List.Perm.append_left xs (insertLeft_perm less x acc)).trans ?_
    simp

theorem insertionSort_func_perm {α : Type} (less : α → α → Bool) (data : List α) :
    (insertionSort_func less data).Perm data := by
  unfold insertionSort_func
  refine (List.reverse_perm _).trans ?_
  simpa using foldl_insertLeft_perm less data []

/-- `insertLeft` keeps the prefix sorted (read from its right end: no element is
less than one that follows it in the list). -/
theorem insertLeft_sorted {α : Type} (less : α → α → Bool) (hl : StrictWeak less) (x : α) :
    ∀ l : List α, l.Pairwise (fun a b => less a b = false) →
      (insertLeft less x l).Pairwise (fun a b => less a b = false) := by
  intro l
  induction l with
  | nil => intro _; simp [insertLeft]
  | cons y ys ih =>
    intro hp
    obtain ⟨hy, hys⟩ := List.pairwise_cons.1 hp
    unfold insertLeft
    by_cases h : less x y = true
    · rw [if_pos h]
      refine List.pairwise_cons.2 ⟨?_, ih hys⟩
      intro z hz
      rcases List.mem_cons.1 ((insertLeft_perm less x ys).mem_iff.1 hz) with hzx | hzy
      · rw [hzx]
        exact hl.1 x y h
      · exact hy z hzy
    · rw [if_neg h]
      have hxy : less x y = false := by simpa using h
      refine List.pairwise_cons.2 ⟨?_, hp⟩
      intro z hz
      rcases List.mem_cons.1 hz with hzy | hzy
      · rw [hzy]
        exact hxy
      · exact hl.2 x y z hxy (hy z hzy)

theorem foldl_insertLeft_sorted {α : Type} (less : α → α → Bool) (hl : StrictWeak less)
    (data : List α) :
    ∀ acc : List α, acc.Pairwise (fun a b => less a b = false) →
      (data.foldl (fun sortedPrefix x => insertLeft less x sortedPrefix) acc).Pairwise
        (fun a b => less a b = false) := by
  induction data with
  | nil => intro acc h; simpa using h
  | cons x xs ih =>
    intro acc h
    rw [List.foldl_cons]
    exact ih _ (insertLeft_sorted less hl x acc h)

/-- `insertionSort_func` meets the contract of a sorting routine. -/
theorem insertionSort_func_sorts {α : Type} :
    SortsSlice (fun less data => insertionSort_func (α := α) less data) := by
  intro less hl data
  refine ⟨insertionSort_func_perm less data, ?_⟩
  unfold insertionSort_func
  rw [List.pairwise_reverse]
  exact foldl_insertLeft_sorted less hl data [] List.Pairwise.nil

/-- `sort.Slice` meets the contract when its quicksort does. -/
theorem sortSlice_sorts {α : Type} (pdqsort : (α → α → Bool) → List α → List α)
    (hp : SortsSlice pdqsort) : SortsSlice (sortSlice pdqsort) := by
  intro less hl data
  unfold sortSlice
  by_cases h : data.length ≤ maxInsertion
  · rw [if_pos h]
    exact insertionSort_func_sorts less hl data
  · rw [if_neg h]
    exact hp less hl data

/-- The closure of `selectFastestResolver` is a strict weak ordering. -/
theorem resultLess_strictWeak : StrictWeak resultLess := by
  constructor
  · intro a b
    unfold resultLess
    cases ha : a.Success <;> cases hb : b.Success <;> simp <;> omega
  · intro a b c
    unfold resultLess
    cases ha : a.Success <;> cases hb : b.Success <;> cases hc : c.Success <;> simp <;> omega

/-- An element that enters the sorted prefix does not overtake the elements it
ties with: among the elements of a class `p` of mutually unordered elements, the
new one is the last (the first of the list read from the right end). -/
theorem insertLeft_filter {α : Type} (less : α → α → Bool) (p : α → Bool)
    (hp : ∀ a b, p a = true → p b = true → less a b = false) (x : α) :
    ∀ l : List α, (insertLeft less x l).filter p = (x :: l).filter p := by
  intro l
  induction l with
  | nil => simp [insertLeft]
  | cons y ys ih =>
    unfold insertLeft
    by_cases h : less x y = true
    · rw [if_pos h, List.filter_cons, ih]
      by_cases hx : p x = true
      · have hy : p y = false := by
          by_contra hy
          have := hp x y hx (by simpa using hy)
          rw [h] at this
          exact Bool.noConfusion this
        simp [List.filter_cons, hx, hy]
      · simp [List.filter_cons, hx]
    · rw [if_neg h]

theorem foldl_insertLeft_filter {α : Type} (less : α → α → Bool) (p : α → Bool)
    (hp : ∀ a b, p a = true → p b = true → less a b = false) (data : List α) :
    ∀ acc : List α,
      (data.foldl (fun sortedPrefix x => insertLeft less x sortedPrefix) acc).filter p =
        (data.filter p).reverse ++ acc.filter p := by
  induction data with
  | nil => intro acc; simp
  | cons x xs ih =>
    intro acc
    rw [List.foldl_cons, ih, insertLeft_filter less p hp x acc]
    by_cases hx : p x = true
    · simp [List.filter_cons, hx]
    · simp [List.filter_cons, hx]

/-- `insertionSort_func` is stable: a class of mutually unordered elements keeps
its order. -/
theorem insertionSort_func_stable {α : Type} (less : α → α → Bool) (p : α → Bool)
    (hp : ∀ a b, p a = true → p b = true → less a b = false) (data : List α) :
    (insertionSort_func less data).filter p = data.filter p := by
  unfold insertionSort_func
  rw [List.filter_reverse, foldl_insertLeft_filter less p hp data []]
  simp

/-- Tied results are unordered under `resultLess`. -/
theorem resultLess_of_tied (x a b : ResolverResult) (ha : tied x a = true)
    (hb : tied x b = true) : resultLess a b = false := by
  unfold tied at ha hb
  unfold resultLess
  simp only [Bool.and_eq_true, decide_eq_true_eq] at ha hb
  have h1 : a.Success = b.Success := ha.1.symm.trans hb.1
  have h2 : a.Latency = b.Latency := ha.2.symm.trans hb.2
  simp [h1, h2]

/-! ## Ranking -/

/-- C3: for every list of probe results, the sequence the ranking step returns
(the `sort.Slice` call followed by the projection loop) lists, position by position,
the resolvers of the sorted results; it is a permutation of the probed resolvers; no
failed probe stands before a successful one; and among the successes and among the
failures latencies never decrease. -/
theorem rankResults_sorted
    (pdqsort : (ResolverResult → ResolverResult → Bool) →
      List ResolverResult → List ResolverResult)
    (hp : SortsSlice pdqsort) (results : List ResolverResult) :
    sortedResolvers (rankResults pdqsort results) =
      (rankResults pdqsort results).map (fun r => r.Resolver) ∧
    (sortedResolvers (rankResults pdqsort results)).Perm
      (results.map (fun r => r.Resolver)) ∧
    (rankResults pdqsort results).Perm results ∧
    (rankResults pdqsort results).Pairwise (fun a b =>
      (b.Success = true → a.Success = true) ∧
      (a.Success = b.Success → a.Latency ≤ b.Latency)) ∧
    (∀ i j, i < j → j < (sortedResolvers (rankResults pdqsort results)).length →
      ∃ a b, (rankResults pdqsort results).get? i = some a ∧
        (rankResults pdqsort results).get? j = some b ∧
        (sortedResolvers (rankResults pdqsort results)).get? i = some a.Resolver ∧
        (sortedResolvers (rankResults pdqsort results)).get? j = some b.Resolver ∧
        (b.Success = true → a.Success = true) ∧
        (a.Success = b.Success → a.Latency ≤ b.Latency)) := by
  obtain ⟨hperm, hsorted⟩ := sortSlice_sorts pdqsort hp resultLess resultLess_strictWeak results
  have hpair : (rankResults pdqsort results).Pairwise (fun a b =>
      (b.Success = true → a.Success = true) ∧
      (a.Success = b.Success → a.Latency ≤ b.Latency)) := by
    refine List.Pairwise.imp ?_ hsorted
    intro a b hba
    unfold resultLess at hba
    constructor
    · intro hb
      by_contra ha
      have ha0 : a.Success = false := by simpa using ha
      simp [ha0, hb] at hba
    · intro hab
      simp [hab] at hba
      exact hba
  refine ⟨rfl, ?_, hperm, hpair, ?_⟩
  · exact hperm.map _
  · intro i j hij hj
    have hlen : (sortedResolvers (rankResults pdqsort results)).length =
        (rankResults pdqsort results).length := by
      simp [sortedResolvers]
    have hj1 : j < (rankResults pdqsort results).length := by omega
    have hi1 : i < (rankResults pdqsort results).length := by omega
    refine ⟨(rankResults pdqsort results).get ⟨i, hi1⟩,
      (rankResults pdqsort results).get ⟨j, hj1⟩, List.get?_eq_get hi1, List.get?_eq_get hj1,
      ?_, ?_, ?_⟩
    · simp [sortedResolvers, List.getElem?_eq_getElem hi1]
    · simp [sortedResolvers, List.getElem?_eq_getElem hj1]
    · exact List.pairwise_iff_get.1 hpair ⟨i, hi1⟩ ⟨j, hj1⟩ hij

/-- C3 at a concrete list of three results, with the insertion sort as the
quicksort argument: the failed probe and the slow success move behind. -/
theorem rankResults_sorted_witness :
    sortedResolvers (rankResults (fun less data => insertionSort_func less data)
      [{ Resolver := { Kind := "udp", Addr := "8.8.8.8:53", URL := "", Priority := 1 },
         Latency := 0, Success := false },
       { Resolver := { Kind := "dot", Addr := "1.1.1.1:853", URL := "", Priority := 3 },
         Latency := 700, Success := true },
       { Resolver := { Kind := "doh", Addr := "", URL := "https://d.example/q", Priority := 2 },
         Latency := 5, Success := true }]) =
      (rankResults (fun less data => insertionSort_func less data)
      [{ Resolver := { Kind := "udp", Addr := "8.8.8.8:53", URL := "", Priority := 1 },
         Latency := 0, Success := false },
       { Resolver := { Kind := "dot", Addr := "1.1.1.1:853", URL := "", Priority := 3 },
         Latency := 700, Success := true },
       { Resolver := { Kind := "doh", Addr := "", URL := "https://d.example/q", Priority := 2 },
         Latency := 5, Success := true }]).map (fun r => r.Resolver) ∧
    sortedResolvers (rankResults (fun less data => insertionSort_func less data)
      [{ Resolver := { Kind := "udp", Addr := "8.8.8.8:53", URL := "", Priority := 1 },
         Latency := 0, Success := false },
       { Resolver := { Kind := "dot", Addr := "1.1.1.1:853", URL := "", Priority := 3 },
         Latency := 700, Success := true },
       { Resolver := { Kind := "doh", Addr := "", URL := "https://d.example/q", Priority := 2 },
         Latency := 5, Success := true }]) =
      [{ Kind := "doh", Addr := "", URL := "https://d.example/q", Priority := 2 },
       { Kind := "dot", Addr := "1.1.1.1:853", URL := "", Priority := 3 },
       { Kind := "udp", Addr := "8.8.8.8:53", URL := "", Priority := 1 }] :=
  ⟨(rankResults_sorted (fun less data => insertionSort_func less data)
      insertionSort_func_sorts _).1, by decide⟩

/-- The collected slice has one result per listed goroutine. -/
theorem collectResults_length (completion : List Nat) (probed : List ResolverResult)
    (h : ∀ i ∈ completion, i < probed.length) :
    (collectResults completion probed).length = completion.length := by
  unfold collectResults
  induction completion with
  | nil => simp
  | cons i rest ih =>
    have hi : i < probed.length := h i (List.mem_cons_self i rest)
    have hrest : ∀ j ∈ rest, j < probed.length := fun j hj => h j (List.mem_cons_of_mem i hj)
    rw [List.filterMap_cons]
    have hget : probed.get? i = some (probed.get ⟨i, hi⟩) := List.get?_eq_get hi
    rw [hget]
    simp only [List.length_cons]
    rw [ih hrest]

theorem probeAll_length (env : Nat → ProbeEnv) (resolvers : List Resolver) :
    (probeAll env resolvers).length = resolvers.length := by
  simp [probeAll]

theorem filterMap_get_range (l : List ResolverResult) :
    ∀ suffix : List ResolverResult,
      (List.range l.length).filterMap (fun i => (l ++ suffix).get? i) = l := by
  induction l using List.reverseRecOn with
  | nil => intro suffix; simp
  | append_singleton l a ih =>
    intro suffix
    have h1 := ih ([a] ++ suffix)
    rw [List.length_append, List.length_singleton, List.range_succ, List.filterMap_append,
      List.append_assoc, h1]
    simp [List.getElem_append_right]

/-- When the goroutines finish in input order the slice is in input order. -/
theorem collectResults_range (probed : List ResolverResult) :
    collectResults (List.range probed.length) probed = probed := by
  unfold collectResults
  simpa using filterMap_get_range probed []

/-- The auto-select step of `main` (lines 106-110) returns as many resolvers as it
is given, so a configuration that was accepted is still accepted after it. -/
theorem autoSelect_accepted
    (pdqsort : (ResolverResult → ResolverResult → Bool) →
      List ResolverResult → List ResolverResult)
    (hp : SortsSlice pdqsort) (env : Nat → ProbeEnv) (completion : List Nat)
    (config : Config) (hc : completion.Perm (List.range config.Resolvers.length))
    (hv : validateConfig config = none) :
    (selectFastestResolver pdqsort env completion config.Resolvers).length =
      config.Resolvers.length ∧
    validateConfig
      { config with
        Resolvers := selectFastestResolver pdqsort env completion config.Resolvers } = none := by
  have hlen : (selectFastestResolver pdqsort env completion config.Resolvers).length =
      config.Resolvers.length := by
    unfold selectFastestResolver sortedResolvers rankResults
    rw [List.length_map,
      (sortSlice_sorts pdqsort hp resultLess resultLess_strictWeak _).1.length_eq,
      collectResults_length, hc.length_eq, List.length_range]
    intro i hi
    rw [probeAll_length]
    exact List.mem_range.1 (hc.mem_iff.1 hi)
  obtain ⟨h1, h2, h3, h4⟩ := validateConfig_accepts config hv
  refine ⟨hlen, ?_⟩
  have hne : config.Resolvers.length ≠ 0 := by
    intro h0
    exact h4 (List.length_eq_zero.1 h0)
  simp [validateConfig, h1, h2, h3, hlen, hne]

/-- C9, as stated, fails: two DoH resolvers whose probes tie; the probe of the
second finishes first, and the returned order is the completion order, the reverse
of the input order. -/
theorem selectFastestResolver_ties_not_input_order :
    probeAll (fun _ => { elapsed := 1000, dialOk := true })
      [{ Kind := "doh", Addr := "", URL := "https://a.example/q", Priority := 1 },
       { Kind := "doh", Addr := "", URL := "https://b.example/q", Priority := 2 }] =
      [{ Resolver := { Kind := "doh", Addr := "", URL := "https://a.example/q", Priority := 1 },
         Latency := 1000, Success := true },
       { Resolver := { Kind := "doh", Addr := "", URL := "https://b.example/q", Priority := 2 },
         Latency := 1000, Success := true }] ∧
    selectFastestResolver (fun less data => insertionSort_func less data)
      (fun _ => { elapsed := 1000, dialOk := true }) [1, 0]
      [{ Kind := "doh", Addr := "", URL := "https://a.example/q", Priority := 1 },
       { Kind := "doh", Addr := "", URL := "https://b.example/q", Priority := 2 }] =
      [{ Kind := "doh", Addr := "", URL := "https://b.example/q", Priority := 2 },
       { Kind := "doh", Addr := "", URL := "https://a.example/q", Priority := 1 }] := by
  decide

/-- The entries of a projected list that stand at the positions selected in the
list it was projected from are the projections of the selected elements. -/
theorem zip_map_filterMap (q : ResolverResult → Bool) (l : List ResolverResult) :
    (List.zip (l.map (fun r => r.Resolver)) l).filterMap
        (fun p => if q p.2 = true then some p.1 else none) =
      (l.filter q).map (fun r => r.Resolver) := by
  induction l with
  | nil => rfl
  | cons a rest ih =>
    by_cases h : q a = true
    · simp [List.filterMap_cons, List.filter_cons, h, ih]
    · simp [List.filterMap_cons, List.filter_cons, h, ih]

/-- The results `probeAll` lists carry the resolvers of the input, in input order. -/
theorem probeAll_resolvers (env : Nat → ProbeEnv) (resolvers : List Resolver) :
    (probeAll env resolvers).map (fun r => r.Resolver) = resolvers := by
  unfold probeAll
  rw [List.map_map]
  have h : ((fun r : ResolverResult => r.Resolver) ∘ fun ir : Nat × Resolver =>
      ({ Resolver := ir.2,
         Latency := (testResolverLatency (env ir.1) ir.2).1,
         Success := (testResolverLatency (env ir.1) ir.2).2 } : ResolverResult)) =
      Prod.snd := by
    funext ir
    rfl
  rw [h, List.enum_map_snd]

/-- The contract of a sorting routine does not fix the order of ties: sorting the
reversed slice meets it and returns tied elements in reverse. Above `maxInsertion`
elements `sort.Slice` promises no more than the contract (it documents that equal
elements may be reversed). -/
theorem sortsSlice_may_reverse_ties :
    SortsSlice (fun (less : ResolverResult → ResolverResult → Bool) data =>
      insertionSort_func less data.reverse) ∧
    sortedResolvers
      (rankResults (fun less data => insertionSort_func less data.reverse)
        ((List.range 13).map (fun i =>
          ({ Resolver := { Kind := "doh", Addr := "", URL := "", Priority := i },
             Latency := 0, Success := true } : ResolverResult)))) =
      (List.range 13).reverse.map (fun i =>
        ({ Kind := "doh", Addr := "", URL := "", Priority := i } : Resolver)) := by
  constructor
  · intro less hl data
    exact ⟨(insertionSort_func_perm less data.reverse).trans (List.reverse_perm data),
      (insertionSort_func_sorts less hl data.reverse).2⟩
  · decide

/-- C9, amended: for at most `maxInsertion` resolvers, whatever the probe outcomes
and the order in which the probes finish, the returned sequence lists position by
position the resolvers of the sorted results, and the resolvers whose results tie
stand in it in the relative order their results have in the collected slice, which
is the order in which their probes finished; it is the input order when the probes
finish in input order. -/
theorem selectFastestResolver_ties_keep_completion_order
    (pdqsort : (ResolverResult → ResolverResult → Bool) →
      List ResolverResult → List ResolverResult)
    (env : Nat → ProbeEnv) (completion : List Nat) (resolvers : List Resolver)
    (hc : completion.Perm (List.range resolvers.length))
    (hn : resolvers.length ≤ maxInsertion) :
    selectFastestResolver pdqsort env completion resolvers =
      (rankResults pdqsort (collectResults completion (probeAll env resolvers))).map
        (fun r => r.Resolver) ∧
    (∀ x : ResolverResult,
      (rankResults pdqsort (collectResults completion (probeAll env resolvers))).filter
          (tied x) =
        (collectResults completion (probeAll env resolvers)).filter (tied x)) ∧
    (∀ x : ResolverResult,
      (List.zip (selectFastestResolver pdqsort env completion resolvers)
          (rankResults pdqsort (collectResults completion (probeAll env resolvers)))).filterMap
          (fun p => if tied x p.2 = true then some p.1 else none) =
        ((collectResults completion (probeAll env resolvers)).filter (tied x)).map
          (fun r => r.Resolver)) ∧
    (collectResults completion (probeAll env resolvers)).Perm (probeAll env resolvers) ∧
    (probeAll env resolvers).map (fun r => r.Resolver) = resolvers ∧
    (completion = List.range resolvers.length →
      collectResults completion (probeAll env resolvers) = probeAll env resolvers) := by
  have hstable : ∀ x : ResolverResult,
      (rankResults pdqsort (collectResults completion (probeAll env resolvers))).filter
          (tied x) =
        (collectResults completion (probeAll env resolvers)).filter (tied x) := by
    intro x
    have hlen : (collectResults completion (probeAll env resolvers)).length ≤ maxInsertion := by
      have h1 : (collectResults completion (probeAll env resolvers)).length ≤
          completion.length := by
        unfold collectResults
        exact List.length_filterMap_le _ _
      have h2 : completion.length = resolvers.length := by
        rw [hc.length_eq, List.length_range]
      omega
    unfold rankResults sortSlice
    rw [if_pos hlen]
    exact insertionSort_func_stable resultLess (tied x) (resultLess_of_tied x) _
  have hrange : collectResults (List.range resolvers.length) (probeAll env resolvers) =
      probeAll env resolvers := by
    rw [← probeAll_length env resolvers]
    exact collectResults_range _
  refine ⟨rfl, hstable, ?_, ?_, probeAll_resolvers env resolvers, ?_⟩
  · intro x
    have hret : selectFastestResolver pdqsort env completion resolvers =
        (rankResults pdqsort (collectResults completion (probeAll env resolvers))).map
          (fun r => r.Resolver) := rfl
    rw [hret, zip_map_filterMap, hstable x]
  · have hp : (collectResults completion (probeAll env resolvers)).Perm
        (collectResults (List.range resolvers.length) (probeAll env resolvers)) := by
      unfold collectResults
      exact hc.filterMap _
    rw [hrange] at hp
    exact hp
  · intro h
    rw [h]
    exact hrange

/-- C9, amended, at the two tied DoH resolvers whose probes finish in reverse: the
returned sequence lists them as the collected slice does. -/
theorem selectFastestResolver_ties_witness :
    (List.zip
        (selectFastestResolver (fun less data => insertionSort_func less data)
          (fun _ => { elapsed := 1000, dialOk := true }) [1, 0]
          [{ Kind := "doh", Addr := "", URL := "https://a.example/q", Priority := 1 },
           { Kind := "doh", Addr := "", URL := "https://b.example/q", Priority := 2 }])
        (rankResults (fun less data => insertionSort_func less data)
          (collectResults [1, 0]
            (probeAll (fun _ => { elapsed := 1000, dialOk := true })
              [{ Kind := "doh", Addr := "", URL := "https://a.example/q", Priority := 1 },
               { Kind := "doh", Addr := "", URL := "https://b.example/q",
                 Priority := 2 }])))).filterMap
        (fun p =>
          if tied { Resolver := { Kind := "doh", Addr := "", URL := "", Priority := 0 },
                    Latency := 1000, Success := true } p.2 = true
          then some p.1 else none) =
      ((collectResults [1, 0]
        (probeAll (fun _ => { elapsed := 1000, dialOk := true })
          [{ Kind := "doh", Addr := "", URL := "https://a.example/q", Priority := 1 },
           { Kind := "doh", Addr := "", URL := "https://b.example/q", Priority := 2 }])).filter
        (tied { Resolver := { Kind := "doh", Addr := "", URL := "", Priority := 0 },
                Latency := 1000, Success := true })).map (fun r => r.Resolver) :=
  (selectFastestResolver_ties_keep_completion_order
    (fun less data => insertionSort_func less data)
    (fun _ => { elapsed := 1000, dialOk := true }) [1, 0]
    [{ Kind := "doh", Addr := "", URL := "https://a.example/q", Priority := 1 },
     { Kind := "doh", Addr := "", URL := "https://b.example/q", Priority := 2 }]
    (List.Perm.swap 0 1 []) (by decide)).2.2.1
    { Resolver := { Kind := "doh", Addr := "", URL := "", Priority := 0 },
      Latency := 1000, Success := true }

/-! ## Supervision loop -/

/-- Incrementing a non-negative counter below the largest `int` does not wrap. -/
theorem wrapInt_eq (x : Int) (h0 : 0 ≤ x) (h1 : x < 2 ^ 63) : wrapInt x = x := by
  unfold wrapInt
  omega

theorem retryConfig_RetryCount (retry : Int) (config : Config) :
    (retryConfig retry config).RetryCount = config.RetryCount := by
  unfold retryConfig
  split <;> rfl

theorem retryConfig_Failover (retry : Int) (config : Config) :
    (retryConfig retry config).Failover = config.Failover := by
  unfold retryConfig
  split <;> rfl

/-- Moving the head to the tail is the left rotation by one. -/
theorem rotateResolvers_eq_rotate (l : List Resolver) : rotateResolvers l = l.rotate 1 := by
  cases l with
  | nil => simp [rotateResolvers]
  | cons r rest => simp [rotateResolvers, List.rotate_cons_succ]

theorem retryConfig_length (retry : Int) (config : Config) :
    (retryConfig retry config).Resolvers.length = config.Resolvers.length := by
  unfold retryConfig
  split
  · simp [rotateResolvers_eq_rotate]
  · rfl

/-- With failover and at least two resolvers every iteration runs a command that
has started no process: iteration 0 runs the command built before the loop, every
later iteration builds its own. -/
theorem cmdStarted_failover (retry : Int) (config : Config) (started : Bool)
    (hf : config.Failover = true) (hn : 2 ≤ config.Resolvers.length)
    (hst : started = false ∨ 0 < retry) : cmdStarted retry config started = false := by
  unfold cmdStarted switchResolver
  rcases hst with h | h
  · simp [h]
  · have h1 : decide (retry > 0) = true := by simpa using h
    have h2 : decide (config.Resolvers.length > 1) = true := by
      simp only [decide_eq_true_eq]
      omega
    simp [h1, h2, hf]

/-- The loop only ever appends to the list of attempts. -/
theorem superviseLoop_trace_extends (run : Nat → ProcessOutcome) :
    ∀ (fuel : Nat) (retry : Int) (config : Config) (args : List String)
      (started : Bool) (launches : Nat) (trace : List Attempt),
      ∃ ext, (superviseLoop run fuel retry config args started launches trace).2 =
        trace ++ ext := by
  intro fuel
  induction fuel with
  | zero =>
    intro retry config args started launches trace
    exact ⟨[], by simp [superviseLoop]⟩
  | succ fuel ih =>
    intro retry config args started launches trace
    unfold superviseLoop
    by_cases h : retry ≤ config.RetryCount
    · rw [if_pos h]
      by_cases hr : runResult run launches (cmdStarted retry config started) =
          some ProcessOutcome.exitZero
      · rw [if_pos hr]
        exact ⟨_, rfl⟩
      · rw [if_neg hr]
        obtain ⟨ext, hext⟩ := ih (wrapInt (retry + 1)) (retryConfig retry config)
          (retryArgs retry config args)
          (startedAfter (runResult run launches (cmdStarted retry config started)))
          (launchesAfter launches (cmdStarted retry config started))
          (trace ++ [attemptOf run retry config args started launches])
        exact ⟨_, by rw [hext, List.append_assoc]⟩
    · rw [if_neg h]
      exact ⟨[], by simp⟩

/-- On the failover path, when every remaining start of the client fails, the loop
declares exhaustion after exactly the remaining number of attempts. -/
theorem superviseLoop_exhausts (run : Nat → ProcessOutcome) :
    ∀ (rem fuel : Nat) (retry : Int) (config : Config) (args : List String)
      (started : Bool) (launches : Nat) (trace : List Attempt),
      0 ≤ retry → config.RetryCount < 2 ^ 63 - 1 →
      config.Failover = true → 2 ≤ config.Resolvers.length →
      (started = false ∨ 0 < retry) →
      (config.RetryCount + 1 - retry).toNat = rem → rem < fuel →
      (∀ i, i < rem → run (launches + i) ≠ ProcessOutcome.exitZero) →
      ∃ t, superviseLoop run fuel retry config args started launches trace =
          (some Exit.exhausted, t) ∧
        t.length = trace.length + rem := by
  intro rem
  induction rem with
  | zero =>
    intro fuel retry config args started launches trace h0 hmax _ _ _ hrem hfuel _
    obtain ⟨f, rfl⟩ : ∃ f, fuel = f + 1 := ⟨fuel - 1, by omega⟩
    have hgt : ¬ retry ≤ config.RetryCount := by omega
    unfold superviseLoop
    rw [if_neg hgt]
    exact ⟨trace, rfl, by simp⟩
  | succ rem ih =>
    intro fuel retry config args started launches trace h0 hmax hf hn hst hrem hfuel hfail
    obtain ⟨f, rfl⟩ : ∃ f, fuel = f + 1 := ⟨fuel - 1, by omega⟩
    have hle : retry ≤ config.RetryCount := by omega
    have hcs := cmdStarted_failover retry config started hf hn hst
    have hres : runResult run launches false = some (run launches) := rfl
    have hne : ¬ (some (run launches) = some ProcessOutcome.exitZero) := by
      intro h
      exact hfail 0 (by omega) (Option.some.inj h)
    have hl : launchesAfter launches false = launches + 1 := rfl
    unfold superviseLoop
    rw [if_pos hle, hcs, hres, if_neg hne, hl, wrapInt_eq (retry + 1) (by omega) (by omega)]
    obtain ⟨t, ht, hlen⟩ := ih f (retry + 1) (retryConfig retry config)
      (retryArgs retry config args) (startedAfter (some (run launches))) (launches + 1)
      (trace ++ [attemptOf run retry config args started launches])
      (by omega) (by rw [retryConfig_RetryCount]; exact hmax)
      (by rw [retryConfig_Failover]; exact hf)
      (by rw [retryConfig_length]; exact hn)
      (Or.inr (by omega))
      (by rw [retryConfig_RetryCount]; omega) (by omega)
      (by
        intro i hi
        have := hfail (i + 1) (by omega)
        rw [show launches + 1 + i = launches + (i + 1) by omega]
        exact this)
    refine ⟨t, ht, ?_⟩
    rw [hlen, List.length_append, List.length_singleton]
    omega

/-- On the failover path, when the start of the client `k` places ahead is the
first to end with status 0, the loop returns right after it. -/
theorem superviseLoop_succeeds (run : Nat → ProcessOutcome) :
    ∀ (k fuel : Nat) (retry : Int) (config : Config) (args : List String)
      (started : Bool) (launches : Nat) (trace : List Attempt),
      0 ≤ retry → config.RetryCount < 2 ^ 63 - 1 →
      config.Failover = true → 2 ≤ config.Resolvers.length →
      (started = false ∨ 0 < retry) →
      retry + k ≤ config.RetryCount → k < fuel →
      run (launches + k) = ProcessOutcome.exitZero →
      (∀ i, i < k → run (launches + i) ≠ ProcessOutcome.exitZero) →
      ∃ t, superviseLoop run fuel retry config args started launches trace =
          (some Exit.succeeded, t) ∧
        t.length = trace.length + k + 1 := by
  intro k
  induction k with
  | zero =>
    intro fuel retry config args started launches trace h0 hmax hf hn hst hle hfuel hok _
    obtain ⟨f, rfl⟩ : ∃ f, fuel = f + 1 := ⟨fuel - 1, by omega⟩
    have hle1 : retry ≤ config.RetryCount := by omega
    have hcs := cmdStarted_failover retry config started hf hn hst
    have hres : runResult run launches false = some (run launches) := rfl
    have hrun : some (run launches) = some ProcessOutcome.exitZero := by
      rw [← hok]
      rfl
    unfold superviseLoop
    rw [if_pos hle1, hcs, hres, if_pos hrun]
    exact ⟨_, rfl, by simp⟩
  | succ k ih =>
    intro fuel retry config args started launches trace h0 hmax hf hn hst hle hfuel hok hfail
    obtain ⟨f, rfl⟩ : ∃ f, fuel = f + 1 := ⟨fuel - 1, by omega⟩
    have hle1 : retry ≤ config.RetryCount := by omega
    have hcs := cmdStarted_failover retry config started hf hn hst
    have hres : runResult run launches false = some (run launches) := rfl
    have hne : ¬ (some (run launches) = some ProcessOutcome.exitZero) := by
      intro h
      exact hfail 0 (by omega) (Option.some.inj h)
    have hl : launchesAfter launches false = launches + 1 := rfl
    unfold superviseLoop
    rw [if_pos hle1, hcs, hres, if_neg hne, hl, wrapInt_eq (retry + 1) (by omega) (by omega)]
    obtain ⟨t, ht, hlen⟩ := ih f (retry + 1) (retryConfig retry config)
      (retryArgs retry config args) (startedAfter (some (run launches))) (launches + 1)
      (trace ++ [attemptOf run retry config args started launches])
      (by omega) (by rw [retryConfig_RetryCount]; exact hmax)
      (by rw [retryConfig_Failover]; exact hf)
      (by rw [retryConfig_length]; exact hn)
      (Or.inr (by omega))
      (by rw [retryConfig_RetryCount]; push_cast at hle; omega) (by omega)
      (by
        rw [show launches + 1 + k = launches + (k + 1) by omega]
        exact hok)
      (by
        intro i hi
        have := hfail (i + 1) (by omega)
        rw [show launches + 1 + i = launches + (i + 1) by omega]
        exact this)
    refine ⟨t, ht, ?_⟩
    rw [hlen, List.length_append, List.length_singleton]
    omega

/-- With the largest `int` as budget the counter wraps to the smallest `int` and
the loop condition never fails: while no call of `Run` succeeds the loop neither
returns nor declares exhaustion, whatever the number of iterations. -/
theorem superviseLoop_max_budget_runs_on :
    ∀ (fuel : Nat) (retry : Int) (config : Config) (args : List String)
      (started : Bool) (launches : Nat) (trace : List Attempt),
      config.RetryCount = 2 ^ 63 - 1 → -(2 ^ 63) ≤ retry → retry < 2 ^ 63 →
      (superviseLoop (fun _ => ProcessOutcome.exitNonZero) fuel retry config args started
        launches trace).1 = none ∧
      (superviseLoop (fun _ => ProcessOutcome.exitNonZero) fuel retry config args started
        launches trace).2.length = trace.length + fuel := by
  intro fuel
  induction fuel with
  | zero =>
    intro retry config args started launches trace _ _ _
    simp [superviseLoop]
  | succ fuel ih =>
    intro retry config args started launches trace hrc hlo hhi
    have hle : retry ≤ config.RetryCount := by omega
    have hw : -(2 ^ 63) ≤ wrapInt (retry + 1) ∧ wrapInt (retry + 1) < 2 ^ 63 := by
      unfold wrapInt
      omega
    have hne : ¬ (runResult (fun _ => ProcessOutcome.exitNonZero) launches
        (cmdStarted retry config started) = some ProcessOutcome.exitZero) := by
      unfold runResult
      split <;> simp
    unfold superviseLoop
    rw [if_pos hle, if_neg hne]
    obtain ⟨h1, h2⟩ := ih (wrapInt (retry + 1)) (retryConfig retry config)
      (retryArgs retry config args)
      (startedAfter (runResult (fun _ => ProcessOutcome.exitNonZero) launches
        (cmdStarted retry config started)))
      (launchesAfter launches (cmdStarted retry config started))
      (trace ++ [attemptOf (fun _ => ProcessOutcome.exitNonZero) retry config args started
        launches])
      (by rw [retryConfig_RetryCount]; exact hrc) hw.1 hw.2
    refine ⟨h1, ?_⟩
    rw [h2, List.length_append, List.length_singleton]
    omega

/-- With failover and at least two resolvers, iteration `k` runs with the
configuration rotated once, except iteration 0, which runs with it as it is. -/
theorem retryConfig_failover (k : Nat) (config : Config) (args : List String)
    (hf : config.Failover = true) (hn : 2 ≤ config.Resolvers.length)
    (hargs : k = 0 → args = buildClientArgs config) :
    retryConfig (k : Int) config =
      { config with Resolvers := config.Resolvers.rotate (if k = 0 then 0 else 1) } ∧
    retryArgs (k : Int) config args = buildClientArgs (retryConfig (k : Int) config) := by
  by_cases hk : k = 0
  · subst hk
    have hs : switchResolver 0 config = false := by
      simp [switchResolver]
    simp [retryConfig, retryArgs, hs, hargs rfl]
  · have hs : switchResolver (k : Int) config = true := by
      simp [switchResolver, hf]
      omega
    simp [retryConfig, retryArgs, hs, hk, rotateResolvers_eq_rotate]

/-- With failover and at least two resolvers, after `m` further failures the next
attempt starts the client with the resolvers rotated once per retry made. -/
theorem superviseLoop_attempt (run : Nat → ProcessOutcome) :
    ∀ (m fuel k : Nat) (config : Config) (args : List String) (started : Bool)
      (launches : Nat) (trace : List Attempt),
      trace.length = k → launches = k →
      config.Failover = true → 2 ≤ config.Resolvers.length →
      (k : Int) + m ≤ config.RetryCount → config.RetryCount < 2 ^ 63 →
      (k = 0 → args = buildClientArgs config) → (k = 0 → started = false) →
      (∀ i, i < m → run (k + i) ≠ ProcessOutcome.exitZero) → m < fuel →
      (superviseLoop run fuel (k : Int) config args started launches trace).2.get? (k + m) =
        some { resolvers := config.Resolvers.rotate (if k = 0 then m else m + 1),
               args := buildClientArgs
                 { config with
                   Resolvers := config.Resolvers.rotate (if k = 0 then m else m + 1) },
               result := some (run (k + m)) } := by
  intro m
  induction m with
  | zero =>
    intro fuel k config args started launches trace hlen hla hf hn hle _ hargs hstart _ hfuel
    obtain ⟨f, rfl⟩ : ∃ f, fuel = f + 1 := ⟨fuel - 1, by omega⟩
    obtain ⟨hcfg, hra⟩ := retryConfig_failover k config args hf hn hargs
    have hst : started = false ∨ 0 < (k : Int) := by
      by_cases hk : k = 0
      · exact Or.inl (hstart hk)
      · exact Or.inr (by omega)
    have hcs := cmdStarted_failover (k : Int) config started hf hn hst
    have hle1 : (k : Int) ≤ config.RetryCount := by omega
    have hatt : ∃ ext, (superviseLoop run (f + 1) (k : Int) config args started launches
        trace).2 = trace ++ [attemptOf run (k : Int) config args started launches] ++ ext := by
      unfold superviseLoop
      rw [if_pos hle1]
      by_cases hr : runResult run launches (cmdStarted (k : Int) config started) =
          some ProcessOutcome.exitZero
      · rw [if_pos hr]
        exact ⟨[], by simp⟩
      · rw [if_neg hr]
        exact superviseLoop_trace_extends run f _ _ _ _ _ _
    obtain ⟨ext, hext⟩ := hatt
    rw [hext]
    unfold attemptOf
    rw [hra, hcfg, hcs, hla]
    simp [← hlen, List.getElem_append_right, runResult]
  | succ m ih =>
    intro fuel k config args started launches trace hlen hla hf hn hle hmax hargs hstart
      hfail hfuel
    obtain ⟨f, rfl⟩ : ∃ f, fuel = f + 1 := ⟨fuel - 1, by omega⟩
    obtain ⟨hcfg, _⟩ := retryConfig_failover k config args hf hn hargs
    have hst : started = false ∨ 0 < (k : Int) := by
      by_cases hk : k = 0
      · exact Or.inl (hstart hk)
      · exact Or.inr (by omega)
    have hcs := cmdStarted_failover (k : Int) config started hf hn hst
    have hle1 : (k : Int) ≤ config.RetryCount := by omega
    have hres : runResult run launches false = some (run launches) := rfl
    have hne : ¬ (some (run launches) = some ProcessOutcome.exitZero) := by
      intro h
      have := hfail 0 (by omega)
      rw [hla] at h
      exact this (Option.some.inj h)
    have hl : launchesAfter launches false = launches + 1 := rfl
    have hstep := ih f (k + 1) (retryConfig (k : Int) config) (retryArgs (k : Int) config args)
      (startedAfter (some (run launches))) (launches + 1)
      (trace ++ [attemptOf run (k : Int) config args started launches])
      (by simp [hlen]) (by omega)
      (by rw [retryConfig_Failover]; exact hf)
      (by rw [retryConfig_length]; exact hn)
      (by rw [retryConfig_RetryCount]; push_cast at hle ⊢; omega)
      (by rw [retryConfig_RetryCount]; exact hmax)
      (by intro h; omega) (by intro h; omega)
      (by
        intro i hi
        have := hfail (i + 1) (by omega)
        rw [show k + 1 + i = k + (i + 1) by omega]
        exact this)
      (by omega)
    unfold superviseLoop
    rw [if_pos hle1, hcs, hres, if_neg hne, hl, wrapInt_eq ((k : Int) + 1) (by omega) (by omega)]
    have hidx : k + (m + 1) = k + 1 + m := by omega
    rw [hidx]
    push_cast at hstep
    rw [hstep, hcfg]
    by_cases hk : k = 0
    · simp [hk, List.rotate_rotate]
    · simp [hk, List.rotate_rotate]
      constructor
      · congr 1
        omega
      · congr 3
        omega

/-- A retry that does not switch resolver runs the command of the previous
iteration again: after a first start that ends with a non-zero status, every later
call of `Run` is refused (`none`) and the client is never started again, so the
loop declares exhaustion although the second start would have succeeded. -/
theorem runClient_reused_command_not_restarted :
    runClient "./dnstt-client"
      (fun k => if k = 0 then ProcessOutcome.exitNonZero else ProcessOutcome.exitZero) 5
      { sampleConfig with Failover := false } =
      (some Exit.exhausted,
        [{ resolvers := sampleConfig.Resolvers, args := buildClientArgs sampleConfig,
           result := some ProcessOutcome.exitNonZero },
         { resolvers := sampleConfig.Resolvers, args := buildClientArgs sampleConfig,
           result := none },
         { resolvers := sampleConfig.Resolvers, args := buildClientArgs sampleConfig,
           result := none },
         { resolvers := sampleConfig.Resolvers, args := buildClientArgs sampleConfig,
           result := none }]) := by
  decide

/-- C5, as stated, fails for a budget below -1: with `retry_count = -2` the loop
declares exhaustion after no attempt at all, and 0 is neither at most nor equal to
`retry_count + 1 = -1`. -/
theorem runClient_negative_budget :
    validateConfig { sampleConfig with RetryCount := -2 } = none ∧
    runClient "./dnstt-client" (fun _ => ProcessOutcome.exitNonZero) 1
        { sampleConfig with RetryCount := -2 } =
      (some Exit.exhausted, []) ∧
    ¬ (((runClient "./dnstt-client" (fun _ => ProcessOutcome.exitNonZero) 1
          { sampleConfig with RetryCount := -2 }).2.length : Int) ≤
        ({ sampleConfig with RetryCount := -2 } : Config).RetryCount + 1) := by
  decide

/-- C5, amended: with failover enabled and at least two resolvers (every retry then
builds a new command), for every retry budget below the largest `int` and every
sequence of outcomes of the client, the loop ends; it makes at most
`max (retry_count + 1) 0` attempts, attempt `i` (counted from 0) is a start of the
client and meets outcome `i`; it declares exhaustion only after exactly
`max (retry_count + 1) 0` attempts, all failed; and when attempt `k` is the first to
succeed it returns right after it, with exactly `k + 1` attempts made. -/
theorem runClient_attempts (clientPath : String) (run : Nat → ProcessOutcome) (fuel : Nat)
    (config : Config) (hpath : clientPath ≠ "")
    (hf : config.Failover = true) (hn : 2 ≤ config.Resolvers.length)
    (hmax : config.RetryCount < 2 ^ 63 - 1)
    (hfuel : (config.RetryCount + 1).toNat < fuel) :
    ∃ (exit : Exit) (trace : List Attempt),
      runClient clientPath run fuel config = (some exit, trace) ∧
      trace.length ≤ (config.RetryCount + 1).toNat ∧
      (∀ i, i < trace.length →
        (trace.get? i).map (fun a => a.result) = some (some (run i))) ∧
      (exit = Exit.exhausted →
        trace.length = (config.RetryCount + 1).toNat ∧
        ∀ i, i < (config.RetryCount + 1).toNat → run i ≠ ProcessOutcome.exitZero) ∧
      (∀ k, k < (config.RetryCount + 1).toNat → run k = ProcessOutcome.exitZero →
        (∀ i, i < k → run i ≠ ProcessOutcome.exitZero) →
        exit = Exit.succeeded ∧ trace.length = k + 1) := by
  unfold runClient
  rw [if_neg hpath]
  have hresult : ∀ (exit : Exit) (t : List Attempt),
      superviseLoop run fuel 0 config (buildClientArgs config) false 0 [] = (some exit, t) →
      ∀ i, i < t.length → i < (config.RetryCount + 1).toNat →
      (∀ j, j < i → run j ≠ ProcessOutcome.exitZero) →
      (t.get? i).map (fun a => a.result) = some (some (run i)) := by
    intro exit t ht i _ hi hprev
    have h := superviseLoop_attempt run i fuel 0 config (buildClientArgs config) false 0 []
      rfl rfl hf hn (by push_cast; omega) (by omega) (fun _ => rfl) (fun _ => rfl)
      (by simpa using hprev) (by omega)
    simp only [Nat.cast_zero, Nat.zero_add] at h
    rw [ht] at h
    rw [h]
    rfl
  by_cases hall : ∀ i, i < (config.RetryCount + 1).toNat → run i ≠ ProcessOutcome.exitZero
  · obtain ⟨t, ht, hlen⟩ := superviseLoop_exhausts run (config.RetryCount + 1).toNat fuel 0
      config (buildClientArgs config) false 0 [] (le_refl 0) hmax hf hn (Or.inl rfl)
      (by simp) hfuel (by simpa using hall)
    have hlen1 : t.length = (config.RetryCount + 1).toNat := by simpa using hlen
    refine ⟨Exit.exhausted, t, ht, by omega, ?_, fun _ => ⟨hlen1, hall⟩, ?_⟩
    · intro i hi
      exact hresult _ _ ht i hi (by omega) (fun j hj => hall j (by omega))
    · intro k hk hrun _
      exact absurd hrun (hall k hk)
  · have hex : ∃ k, k < (config.RetryCount + 1).toNat ∧ run k = ProcessOutcome.exitZero := by
      by_contra hne
      apply hall
      intro i hi hr
      exact hne ⟨i, hi, hr⟩
    have hk := Nat.find_spec hex
    have hmin : ∀ i, i < Nat.find hex → run i ≠ ProcessOutcome.exitZero := by
      intro i hi hr
      exact Nat.find_min hex hi ⟨by omega, hr⟩
    obtain ⟨t, ht, hlen⟩ := superviseLoop_succeeds run (Nat.find hex) fuel 0 config
      (buildClientArgs config) false 0 [] (le_refl 0) hmax hf hn (Or.inl rfl) (by omega)
      (by omega) (by simpa using hk.2) (by simpa using hmin)
    have hlen1 : t.length = Nat.find hex + 1 := by simpa using hlen
    have hk1 : Nat.find hex < (config.RetryCount + 1).toNat := hk.1
    refine ⟨Exit.succeeded, t, ht, by omega, ?_, fun h => Exit.noConfusion h, ?_⟩
    · intro i hi
      exact hresult _ _ ht i hi (by omega) (fun j hj => hmin j (by omega))
    · intro k _ hrun hfail
      have hkk : k = Nat.find hex := by
        rcases Nat.lt_trichotomy k (Nat.find hex) with h | h | h
        · exact absurd hrun (hmin k h)
        · exact h
        · exact absurd hk.2 (hfail _ h)
      refine ⟨rfl, ?_⟩
      rw [hlen1, hkk]

/-- C5, amended, at the sample configuration (failover, three resolvers, budget 3)
when the third start of the client is the first to succeed. -/
theorem runClient_attempts_witness :
    ∃ (exit : Exit) (trace : List Attempt),
      runClient "./dnstt-client"
        (fun k => if k = 2 then ProcessOutcome.exitZero else ProcessOutcome.exitNonZero) 5
        sampleConfig = (some exit, trace) ∧
      trace.length ≤ (sampleConfig.RetryCount + 1).toNat ∧
      (∀ i, i < trace.length →
        (trace.get? i).map (fun a => a.result) =
          some (some (if i = 2 then ProcessOutcome.exitZero else ProcessOutcome.exitNonZero))) ∧
      (exit = Exit.exhausted →
        trace.length = (sampleConfig.RetryCount + 1).toNat ∧
        ∀ i, i < (sampleConfig.RetryCount + 1).toNat →
          (if i = 2 then ProcessOutcome.exitZero else ProcessOutcome.exitNonZero) ≠
            ProcessOutcome.exitZero) ∧
      (∀ k, k < (sampleConfig.RetryCount + 1).toNat →
        (if k = 2 then ProcessOutcome.exitZero else ProcessOutcome.exitNonZero) =
          ProcessOutcome.exitZero →
        (∀ i, i < k →
          (if i = 2 then ProcessOutcome.exitZero else ProcessOutcome.exitNonZero) ≠
            ProcessOutcome.exitZero) →
        exit = Exit.succeeded ∧ trace.length = k + 1) :=
  runClient_attempts "./dnstt-client"
    (fun k => if k = 2 then ProcessOutcome.exitZero else ProcessOutcome.exitNonZero) 5
    sampleConfig (by decide) rfl (by decide) (by decide) (by decide)

/-- C6: with failover enabled and `n ≥ 2` resolvers, after `N` consecutive failed
attempts (`N` within the retry budget) the next attempt starts the client with the
resolver list rotated left by `N mod n` and with arguments built from that list;
the rotated list is a permutation of the original of the same length. -/
theorem failover_rotation (clientPath : String) (run : Nat → ProcessOutcome) (fuel : Nat)
    (config : Config) (N : Nat) (hpath : clientPath ≠ "")
    (hf : config.Failover = true) (hn : 2 ≤ config.Resolvers.length)
    (hN : (N : Int) ≤ config.RetryCount) (hint : config.RetryCount < 2 ^ 63)
    (hfail : ∀ i, i < N → run i ≠ ProcessOutcome.exitZero) (hfuel : N < fuel) :
    (runClient clientPath run fuel config).2.get? N =
      some { resolvers := config.Resolvers.rotate (N % config.Resolvers.length),
             args := buildClientArgs
               { config with
                 Resolvers := config.Resolvers.rotate (N % config.Resolvers.length) },
             result := some (run N) } ∧
    (config.Resolvers.rotate (N % config.Resolvers.length)).Perm config.Resolvers ∧
    (config.Resolvers.rotate (N % config.Resolvers.length)).length =
      config.Resolvers.length := by
  refine ⟨?_, List.rotate_perm _ _, List.length_rotate _ _⟩
  unfold runClient
  rw [if_neg hpath]
  have h := superviseLoop_attempt run N fuel 0 config (buildClientArgs config) false 0 []
    rfl rfl hf hn (by simpa using hN) hint (fun _ => rfl) (fun _ => rfl)
    (by simpa using hfail) hfuel
  rw [List.rotate_mod]
  simpa using h

/-- C6 at the sample configuration, resolvers udp, doh, dot: after one failure the
order is doh, dot, udp and the client is started on the DoH resolver. -/
theorem failover_rotation_witness :
    (runClient "./dnstt-client" (fun _ => ProcessOutcome.exitNonZero) 5 sampleConfig).2.get? 1 =
      some { resolvers := sampleConfig.Resolvers.rotate (1 % sampleConfig.Resolvers.length),
             args := buildClientArgs
               { sampleConfig with
                 Resolvers :=
                   sampleConfig.Resolvers.rotate (1 % sampleConfig.Resolvers.length) },
             result := some ProcessOutcome.exitNonZero } ∧
    sampleConfig.Resolvers.rotate (1 % sampleConfig.Resolvers.length) =
      [{ Kind := "doh", Addr := "", URL := "https://dns.example/dns-query", Priority := 2 },
       { Kind := "dot", Addr := "1.1.1.1:853", URL := "", Priority := 3 },
       { Kind := "udp", Addr := "8.8.8.8:53", URL := "", Priority := 1 }] ∧
    sampleConfig.Resolvers.rotate (3 % sampleConfig.Resolvers.length) =
      sampleConfig.Resolvers :=
  ⟨(failover_rotation "./dnstt-client" (fun _ => ProcessOutcome.exitNonZero) 5 sampleConfig 1
      (by decide) rfl (by decide) (by decide) (by decide)
      (fun _ _ h => ProcessOutcome.noConfusion h) (by decide)).1,
    by decide, by decide⟩

/-! ## Defaults of the loader -/

/-- The default step replaces exactly the zero values of the three fields. -/
theorem applyDefaults_fields (config : Config) :
    (applyDefaults config).RetryCount = (if config.RetryCount = 0 then 3 else config.RetryCount) ∧
    (applyDefaults config).Timeout = (if config.Timeout = 0 then 10 else config.Timeout) ∧
    (applyDefaults config).MTU = (if config.MTU = "" then "1232" else config.MTU) ∧
    (applyDefaults config).Domain = config.Domain ∧
    (applyDefaults config).LocalAddr = config.LocalAddr ∧
    (applyDefaults config).PubKey = config.PubKey ∧
    (applyDefaults config).PubKeyFile = config.PubKeyFile ∧
    (applyDefaults config).Resolvers = config.Resolvers ∧
    (applyDefaults config).Failover = config.Failover := by
  unfold applyDefaults
  by_cases h1 : config.RetryCount = 0 <;> by_cases h2 : config.Timeout = 0 <;>
    by_cases h3 : config.MTU = "" <;> simp [h1, h2, h3]

/-- C8, as stated, fails: a file that gives `retry_count: 0`, `timeout: 0` and an
empty `mtu` explicitly is loaded with 3, 10 and `"1232"`; the fields present in the
file are not left unchanged. -/
theorem loadConfig_overrides_explicit_zero :
    loadConfig (Except.ok "retry_count: 0\ntimeout: 0\nmtu: \"\"\nfailover: true")
      (fun _ config => (config, some "invalid character 'r' looking for beginning of value"))
      (fun _ config =>
        (unmarshalFields
          { domain := none, local_addr := none, pubkey := none, pubkey_file := none,
            resolvers := none, mtu := some "", failover := some true,
            retry_count := some 0, timeout := some 0 } config, none)) =
      Except.ok
        { Domain := "", LocalAddr := "", PubKey := "", PubKeyFile := "", Resolvers := [],
          MTU := "1232", Failover := true, RetryCount := 3, Timeout := 10 } := by
  rfl

/-- C8, amended: whenever one of the two decoders returns nil, `loadConfig`
succeeds; the struct `decoded` its default step works on is the one the JSON decoder
left when that decoder returned nil, otherwise the one the YAML decoder left, working
on what the JSON decoder had stored. The step sets `retry_count` to 3, `timeout` to
10 and `mtu` to `"1232"` for exactly those of the three whose decoded value is the
zero value (0, 0, the empty string), and leaves every other decoded value and every
other field as decoded. For a file whose keys `file` were decoded into the zero
struct these are the keys that are absent or given as 0 or as the empty string. -/
theorem loadConfig_defaults (d : String)
    (jsonUnmarshal yamlUnmarshal : String → Config → Config × Option String)
    (hok : (jsonUnmarshal d zeroConfig).2 = none ∨
      (yamlUnmarshal d (jsonUnmarshal d zeroConfig).1).2 = none) :
    ∃ decoded config,
      loadConfig (Except.ok d) jsonUnmarshal yamlUnmarshal = Except.ok config ∧
      (jsonUnmarshal d zeroConfig = (decoded, none) ∨
        ∃ c e, jsonUnmarshal d zeroConfig = (c, some e) ∧
          yamlUnmarshal d c = (decoded, none)) ∧
      config.RetryCount = (if decoded.RetryCount = 0 then 3 else decoded.RetryCount) ∧
      config.Timeout = (if decoded.Timeout = 0 then 10 else decoded.Timeout) ∧
      config.MTU = (if decoded.MTU = "" then "1232" else decoded.MTU) ∧
      config.Domain = decoded.Domain ∧
      config.LocalAddr = decoded.LocalAddr ∧
      config.PubKey = decoded.PubKey ∧
      config.PubKeyFile = decoded.PubKeyFile ∧
      config.Resolvers = decoded.Resolvers ∧
      config.Failover = decoded.Failover ∧
      (∀ file : FileFields, decoded = unmarshalFields file zeroConfig →
        config.RetryCount =
          (match file.retry_count with
            | none => 3
            | some v => if v = 0 then 3 else v) ∧
        config.Timeout =
          (match file.timeout with
            | none => 10
            | some v => if v = 0 then 10 else v) ∧
        config.MTU =
          (match file.mtu with
            | none => "1232"
            | some v => if v = "" then "1232" else v)) := by
  have hload : ∃ decoded,
      loadConfig (Except.ok d) jsonUnmarshal yamlUnmarshal =
        Except.ok (applyDefaults decoded) ∧
      (jsonUnmarshal d zeroConfig = (decoded, none) ∨
        ∃ c e, jsonUnmarshal d zeroConfig = (c, some e) ∧
          yamlUnmarshal d c = (decoded, none)) := by
    unfold loadConfig
    rcases hj : jsonUnmarshal d zeroConfig with ⟨c, e⟩
    cases e with
    | none => exact ⟨c, by simp [hj], Or.inl rfl⟩
    | some e1 =>
      rcases hy : yamlUnmarshal d c with ⟨c2, e2⟩
      cases e2 with
      | none => exact ⟨c2, by simp [hj, hy], Or.inr ⟨c, e1, rfl, hy⟩⟩
      | some e3 =>
        rw [hj] at hok
        simp [hy] at hok
  obtain ⟨decoded, hl, hdec⟩ := hload
  obtain ⟨f1, f2, f3, f4, f5, f6, f7, f8, f9⟩ := applyDefaults_fields decoded
  refine ⟨decoded, _, hl, hdec, f1, f2, f3, f4, f5, f6, f7, f8, f9, ?_⟩
  intro file hfile
  rw [f1, f2, f3, hfile]
  refine ⟨?_, ?_, ?_⟩
  · cases h : file.retry_count <;> simp [unmarshalFields, zeroConfig, h]
  · cases h : file.timeout <;> simp [unmarshalFields, zeroConfig, h]
  · cases h : file.mtu <;> simp [unmarshalFields, zeroConfig, h]

/-- C8, amended, at a YAML file that gives a domain, a timeout of 30 and an empty
`mtu`, and no `retry_count`: the JSON decoder refuses the text and leaves the struct
as it is, the YAML decoder stores the three keys. -/
theorem loadConfig_defaults_witness :
    ∃ config,
      loadConfig (Except.ok "domain: t.example.com\ntimeout: 30\nmtu: \"\"")
        (fun _ config =>
          (config, some "invalid character 'd' looking for beginning of value"))
        (fun _ config =>
          (unmarshalFields
            { domain := some "t.example.com", local_addr := none, pubkey := none,
              pubkey_file := none, resolvers := none, mtu := some "", failover := none,
              retry_count := none, timeout := some 30 } config, none)) = Except.ok config ∧
      config.RetryCount = 3 ∧ config.Timeout = 30 ∧ config.MTU = "1232" ∧
      config.Domain = "t.example.com" := by
  obtain ⟨decoded, config, hl, hdec, _, _, _, f4, _, _, _, _, _, hfile⟩ :=
    loadConfig_defaults
      "domain: t.example.com\ntimeout: 30\nmtu: \"\""
      (fun _ config =>
        (config, some "invalid character 'd' looking for beginning of value"))
      (fun _ config =>
        (unmarshalFields
          { domain := some "t.example.com", local_addr := none, pubkey := none,
            pubkey_file := none, resolvers := none, mtu := some "", failover := none,
            retry_count := none, timeout := some 30 } config, none))
      (Or.inr rfl)
  have hd : decoded = unmarshalFields
      { domain := some "t.example.com", local_addr := none, pubkey := none,
        pubkey_file := none, resolvers := none, mtu := some "", failover := none,
        retry_count := none, timeout := some 30 } zeroConfig := by
    rcases hdec with h | ⟨c, e, hj, hy⟩
    · exact absurd (congrArg Prod.snd h) (by simp)
    · have hc : c = zeroConfig := (congrArg Prod.fst hj).symm
      rw [hc] at hy
      exact (congrArg Prod.fst hy).symm
  obtain ⟨g1, g2, g3⟩ := hfile _ hd
  refine ⟨config, hl, g1, ?_, ?_, ?_⟩
  · rw [g2]
    decide
  · rw [g3]
    decide
  · rw [f4, hd]
    rfl

end DnsttHelper
